import Mathlib

/-!
Verification of the newparp connection-token store and user-list store
(src/newparp/model/user_list.py) against their natural-language specification.

The Redis keyspace is embedded shallowly: hashes and string keys become
association lists keyed by the literal Redis key strings, Redis sets become
lists used as finite sets, and each operation of the Python/Lua source becomes
a state-passing Lean function.  TTL values are kept as plain numbers where an
operation reads or writes them; passive expiry is represented by quantifying
over states in which a record is absent.
-/

/-- Lookup of a key in an association list (redis hget on a field, or get). -/
def listGet {α : Type} (k : String) (l : List (String × α)) : Option α :=
  (l.find? (fun p => p.1 == k)).map Prod.snd

/-- Deletion of a key from an association list (redis hdel, or del). -/
def listDel {α : Type} (k : String) (l : List (String × α)) : List (String × α) :=
  l.filter (fun p => p.1 != k)

/-- Insert-or-replace of a key in an association list (redis hset, set, setex). -/
def listSet {α : Type} (k : String) (v : α) (l : List (String × α)) : List (String × α) :=
  (k, v) :: listDel k l

theorem listGet_mem {α : Type} {k : String} {l : List (String × α)} {v : α}
    (h : listGet k l = some v) : (k, v) ∈ l := by
  unfold listGet at h
  cases hf : l.find? (fun p => p.1 == k) with
  | none => rw [hf] at h; exact Option.noConfusion h
  | some p =>
    rw [hf] at h
    simp only [Option.map_some', Option.some.injEq] at h
    have hp := List.find?_some hf
    have hmem := List.mem_of_find?_eq_some hf
    simp only [beq_iff_eq] at hp
    have : p = (k, v) := by
      cases p with
      | mk a b => simp only at hp h; rw [hp, h]
    rw [this] at hmem; exact hmem

theorem listGet_listSet_self {α : Type} (k : String) (v : α) (l : List (String × α)) :
    listGet k (listSet k v l) = some v := by
  simp [listGet, listSet, List.find?_cons]

theorem listGet_listDel_self {α : Type} (k : String) (l : List (String × α)) :
    listGet k (listDel k l) = none := by
  unfold listGet listDel
  rw [Option.map_eq_none', List.find?_eq_none]
  intro p hp
  have := List.of_mem_filter hp
  simp only [bne_iff_ne, ne_eq] at this
  simp only [beq_iff_eq]
  exact this

theorem listGet_listDel_ne {α : Type} {j k : String} (h : j ≠ k) (l : List (String × α)) :
    listGet j (listDel k l) = listGet j l := by
  unfold listGet listDel
  induction l with
  | nil => rfl
  | cons p l ih =>
    by_cases hp : p.1 = j
    · have h1 : (p.1 == j) = true := by simp [hp]
      have h2 : (p.1 != k) = true := by simp [hp, h]
      simp [List.filter_cons, h2, List.find?_cons, h1]
    · have h1 : (p.1 == j) = false := by simp [hp]
      by_cases hk : p.1 = k
      · have h2 : (p.1 != k) = false := by simp [hk]
        simp only [List.filter_cons, h2, Bool.false_eq_true, if_false,
          List.find?_cons, h1]
        exact ih
      · have h2 : (p.1 != k) = true := by simp [hk]
        simp only [List.filter_cons, h2, if_true, List.find?_cons, h1]
        exact ih

theorem listDel_eq_self {α : Type} {k : String} {l : List (String × α)}
    (h : listGet k l = none) : listDel k l = l := by
  unfold listGet at h
  rw [Option.map_eq_none', List.find?_eq_none] at h
  unfold listDel
  rw [List.filter_eq_self]
  intro p hp
  have := h p hp
  simp only [beq_iff_eq] at this
  simp [this]

/-! ## Token exchange: ConnectionTokenStore -/

/-- Fields written by hmset in the create script: user_id, chat_id, session_id
(all Redis values, hence strings). -/
structure TokenRecord where
  user_id : String
  chat_id : String
  session_id : String
  deriving DecidableEq

/-- Token-store state.  The forward entries are the hashes at keys
connection:token:..., the reverse entries are the strings at keys
connection:user:...:... .  The two key families are prefix-disjoint, so they
are kept as two association lists keyed by the full literal key strings. -/
structure TokenState where
  forward : List (String × TokenRecord)
  reverse : List (String × String)
  deriving DecidableEq

/-- Embeds create_connection_token_script.  ARGV(1..4) = user_id, chat_id,
session_id, token.  Note the script builds its forward key from ARGV(3), the
SESSION id, while the reverse key receives ARGV(4), the token, as its value.
The expire calls set TTLs on both keys; TTLs are not modelled here, which
corresponds to observing the store before any expiry happens. -/
def create_connection_token_script (st : TokenState)
    (user_id chat_id session_id token : String) : TokenState :=
  let forward := "connection:token:" ++ session_id
  let reverse := "connection:user:" ++ user_id ++ ":" ++ chat_id
  let st1 : TokenState :=
    match listGet reverse st.reverse with
    | some existing_token =>
        ⟨listDel ("connection:token:" ++ existing_token) st.forward, st.reverse⟩
    | none => st
  ⟨listSet forward ⟨user_id, chat_id, session_id⟩ st1.forward,
   listSet reverse token st1.reverse⟩

/-- Embeds create_connection_token.  uuid4 generation is nondeterministic, so
the fresh token string is passed in as a parameter; the Python function returns
it to the caller after running the script. -/
def create_connection_token (st : TokenState) (user_id chat_id : Nat)
    (session_id token : String) : String × TokenState :=
  (token,
   create_connection_token_script st (toString user_id) (toString chat_id)
     session_id token)

/-- Embeds use_connection_token_script.  The script reads the user_id and
chat_id fields, then a second `local chat_id` declaration shadows the first
with the session_id field, so chat_id holds the session value from then on.
Because hmset always writes all three fields, the first hget is nil exactly
when the forward key is absent.  The del removes the forward key and the key
connection:user:<user_id>:<session field> (the shadowed chat_id).  The final
`return {user_id, chat_id, session_id}` mentions session_id, a name that was
never declared; in Lua an undeclared name reads as nil and a nil entry
truncates the reply, so the reply carries only two entries.  (Under the Redis
sandbox the undeclared read may instead abort the script after the del; either
way no three-element reply is ever produced.) -/
def use_connection_token_script (st : TokenState) (token : String) :
    List String × TokenState :=
  match listGet ("connection:token:" ++ token) st.forward with
  | none => ([], st)
  | some r =>
    let user_id := r.user_id
    let chat_id := r.session_id
    let st1 : TokenState :=
      ⟨listDel ("connection:token:" ++ token) st.forward,
       listDel ("connection:user:" ++ user_id ++ ":" ++ chat_id) st.reverse⟩
    ([user_id, chat_id], st1)

/-- The outcomes of use_connection_token that are not a returned triple:
the InvalidToken exception it raises deliberately, and an uncaught Python
exception (ValueError from int(), or IndexError from data[2]). -/
inductive TokenError
  | invalidToken
  | typeError
  deriving DecidableEq

/-- Decimal digit test for the hex check below. -/
def isHexChar (c : Char) : Bool :=
  c.isDigit || (decide ('a' ≤ c) && decide (c ≤ 'f')) ||
    (decide ('A' ≤ c) && decide (c ≤ 'F'))

/-- Canonical hyphenated UUID shape, the format str(uuid.uuid4()) emits.
uuid.UUID in the source accepts at least these strings; every token the claims
exercise is of this shape, so the wider formats Python also accepts never
arise. -/
def isCanonicalUuid (s : String) : Bool :=
  let cs := s.toList
  (cs.length == 36) &&
    ((List.range 36).all (fun i =>
      match cs.get? i with
      | some c =>
          if i == 8 || i == 13 || i == 18 || i == 23 then c == '-'
          else isHexChar c
      | none => false))

/-- Embeds use_connection_token: reject non-UUID strings with InvalidToken,
run the script, raise InvalidToken on an empty reply, otherwise evaluate
int(data[0]), int(data[1]), data[2].  String.toNat? stands for int() on the
nonnegative decimal strings that occur here; a failed parse is the ValueError
path and a missing index the IndexError path, both modelled as typeError. -/
def use_connection_token (st : TokenState) (token : String) :
    Except TokenError (Nat × Nat × String) × TokenState :=
  if isCanonicalUuid token then
    let r := use_connection_token_script st token
    match r.1 with
    | [] => (Except.error TokenError.invalidToken, r.2)
    | data =>
      match data.get? 0, data.get? 1, data.get? 2 with
      | some a, some b, some c =>
        match a.toNat?, b.toNat? with
        | some ua, some ub => (Except.ok (ua, ub, c), r.2)
        | _, _ => (Except.error TokenError.typeError, r.2)
      | _, _, _ => (Except.error TokenError.typeError, r.2)
  else (Except.error TokenError.invalidToken, st)

/-- Embeds invalidate_connection_token_script: look up the reverse key and,
when present, delete it together with connection:token:<token value>. -/
def invalidate_connection_token (st : TokenState) (user_id chat_id : String) :
    TokenState :=
  let reverse := "connection:user:" ++ user_id ++ ":" ++ chat_id
  match listGet reverse st.reverse with
  | none => st
  | some token =>
      ⟨listDel ("connection:token:" ++ token) st.forward,
       listDel reverse st.reverse⟩

/-- Forward records currently stored for a given (user, chat) pair: these are
the live tokens of the pair, each redeemable at the script level via the
string its key was built from. -/
def liveTokensFor (st : TokenState) (user_id chat_id : String) :
    List (String × TokenRecord) :=
  st.forward.filter (fun p => p.2.user_id == user_id && p.2.chat_id == chat_id)

/-- Claim C1.  The claim states: if create_connection_token(user_id, chat_id,
session_id) returns token t, then redeeming t before expiry with no
intervening operations succeeds and returns exactly (user_id, chat_id,
session_id).  On the code this fails: the create script stores the forward
record under the key built from ARGV(3), the session id, not from ARGV(4),
the token, so redeeming the returned token finds no forward record and
use_connection_token raises InvalidToken.  This theorem evaluates the code at
the failing input user 5, chat 9, session s1, with a concrete UUID token. -/
theorem C1_redeem_after_create_raises_invalid_token :
    (use_connection_token
      (create_connection_token ⟨[], []⟩ 5 9 "s1"
        "aaaaaaaa-aaaa-4aaa-8aaa-aaaaaaaaaaaa").2
      "aaaaaaaa-aaaa-4aaa-8aaa-aaaaaaaaaaaa").1
      = Except.error TokenError.invalidToken := by rfl

/-- Claim C2.  The claim states that at most one live token exists per
(user, chat) pair at any time.  On the code this fails: because the create
script keys forward records by session id and deletes connection:token:<old
token> (a key that never holds a record), two consecutive creates for the same
pair with different session ids leave two forward records for the pair, both
redeemable at the script level.  This theorem evaluates the code on that
two-create trace. -/
theorem C2_two_live_tokens_after_double_create :
    (liveTokensFor
      (create_connection_token
        (create_connection_token ⟨[], []⟩ 1 2 "s1"
          "11111111-1111-4111-8111-111111111111").2
        1 2 "s2" "22222222-2222-4222-8222-222222222222").2
      "1" "2").length = 2 ∧
    (use_connection_token_script
      (create_connection_token
        (create_connection_token ⟨[], []⟩ 1 2 "s1"
          "11111111-1111-4111-8111-111111111111").2
        1 2 "s2" "22222222-2222-4222-8222-222222222222").2
      "s1").1 ≠ [] ∧
    (use_connection_token_script
      (create_connection_token
        (create_connection_token ⟨[], []⟩ 1 2 "s1"
          "11111111-1111-4111-8111-111111111111").2
        1 2 "s2" "22222222-2222-4222-8222-222222222222").2
      "s2").1 ≠ [] := by
  refine ⟨rfl, ?_, ?_⟩ <;> intro h <;> simp [use_connection_token_script,
    create_connection_token, create_connection_token_script, listGet, listSet,
    listDel] at h

/-- Claim C3.  The claim states: redeeming a token twice has the first
redemption succeed and the second signal InvalidToken.  On the code the FIRST
redemption already signals InvalidToken, because the forward record was stored
under the session id rather than the token; the second does signal
InvalidToken as claimed.  This theorem evaluates both redemptions of the token
returned for user 5, chat 9, session s1. -/
theorem C3_first_redemption_signals_invalid_token :
    ((use_connection_token
        (create_connection_token ⟨[], []⟩ 5 9 "s1"
          "bbbbbbbb-bbbb-4bbb-8bbb-bbbbbbbbbbbb").2
        "bbbbbbbb-bbbb-4bbb-8bbb-bbbbbbbbbbbb").1
        = Except.error TokenError.invalidToken) ∧
    ((use_connection_token
        (use_connection_token
          (create_connection_token ⟨[], []⟩ 5 9 "s1"
            "bbbbbbbb-bbbb-4bbb-8bbb-bbbbbbbbbbbb").2
          "bbbbbbbb-bbbb-4bbb-8bbb-bbbbbbbbbbbb").2
        "bbbbbbbb-bbbb-4bbb-8bbb-bbbbbbbbbbbb").1
        = Except.error TokenError.invalidToken) := ⟨rfl, rfl⟩

/-! ## Presence registry: UserListStore -/

/-- State of one chat room in the user-list store:
online models the hash chat:<id>:online mapping socket ids to user ids
(user ids are written with str on ints and str is injective, so they are kept
as naturals); sessions models the family of keys chat:<id>:online:<socket>,
each holding the owning session id together with its current TTL; typing
models the set chat:<id>:typing of user numbers.  A liveness record whose TTL
has passively expired is represented by its absence from sessions. -/
structure RoomState where
  online : List (String × Nat)
  sessions : List (String × (String × Nat))
  typing : List Nat
  deriving DecidableEq

/-- redis sadd on a set modelled as a list: reports how many elements were
actually added and returns the new set. -/
def sadd (l : List Nat) (n : Nat) : Nat × List Nat :=
  if n ∈ l then (0, l) else (1, l ++ [n])

/-- redis srem on a set modelled as a list: reports how many elements were
actually removed and returns the new set. -/
def srem (l : List Nat) (n : Nat) : Nat × List Nat :=
  if n ∈ l then (1, l.filter (fun m => m != n)) else (0, l)

theorem srem_not_mem (l : List Nat) (n : Nat) : n ∉ (srem l n).2 := by
  unfold srem
  by_cases h : n ∈ l
  · simp [h]
  · simp [h]

theorem srem_mem_iff {l : List Nat} {m n : Nat} (hmn : m ≠ n) :
    m ∈ (srem l n).2 ↔ m ∈ l := by
  unfold srem
  by_cases h : n ∈ l
  · simp [h, hmn]
  · simp [h]

/-- Embeds socket_join.  The pipeline first reads hvals of the online hash
(the pre-update snapshot), queues a last_online metadata update under the
separate key queue:usermeta (which touches none of the keys modelled in
RoomState and is therefore not part of the state here), then hsets the socket
into the online hash and setexes the liveness record with TTL 30.  The whole
pipeline returns str(user_id) not in snapshot. -/
def socket_join (st : RoomState) (socket_id session_id : String)
    (user_id : Nat) : Bool × RoomState :=
  let snapshot := st.online.map Prod.snd
  (decide (user_id ∉ snapshot),
   ⟨listSet socket_id user_id st.online,
    listSet socket_id (session_id, 30) st.sessions,
    st.typing⟩)

/-- Embeds socket_ping_script: hget of the socket in the online hash, then get
of its liveness record; if either is missing the script returns false,
otherwise it refreshes the TTL of the liveness record to 30 and returns
true. -/
def socket_ping_script (st : RoomState) (socket_id : String) :
    Bool × RoomState :=
  match listGet socket_id st.online with
  | none => (false, st)
  | some _ =>
    match listGet socket_id st.sessions with
    | none => (false, st)
    | some sv =>
      (true, ⟨st.online, listSet socket_id (sv.1, 30) st.sessions, st.typing⟩)

/-- Outcome of the Python socket_ping wrapper: it raises
PingTimeoutException when the script result is falsy. -/
inductive PingOutcome
  | ok
  | pingTimeout
  deriving DecidableEq

/-- Embeds socket_ping: run the script and raise PingTimeoutException when it
returned false. -/
def socket_ping (st : RoomState) (socket_id : String) :
    PingOutcome × RoomState :=
  let r := socket_ping_script st socket_id
  (if r.1 then PingOutcome.ok else PingOutcome.pingTimeout, r.2)

/-- Embeds socket_disconnect.  The pipeline does hget of the socket (before
any change), hdel of the socket from the online hash, delete of its liveness
record, srem of the user number from the typing set, and hvals of the online
hash after the hdel.  If the hget found nothing the result is False, otherwise
it is whether the owner is absent from the remaining online values. -/
def socket_disconnect (st : RoomState) (socket_id : String)
    (user_number : Nat) : Bool × RoomState :=
  let user_id := listGet socket_id st.online
  let online2 := listDel socket_id st.online
  let sessions2 := listDel socket_id st.sessions
  let typing2 := (srem st.typing user_number).2
  let new_user_ids := online2.map Prod.snd
  let st2 : RoomState := ⟨online2, sessions2, typing2⟩
  match user_id with
  | none => (false, st2)
  | some u => (decide (u ∉ new_user_ids), st2)

/-- One iteration of the loop in user_disconnect_script: for a snapshot entry
whose value is the disconnecting user, hdel the socket from the online hash,
del its liveness record and remember that an online socket was found. -/
def user_disconnect_step (user_id : Nat) (acc : Bool × RoomState)
    (e : String × Nat) : Bool × RoomState :=
  if e.2 == user_id then
    (true,
     ⟨listDel e.1 acc.2.online, listDel e.1 acc.2.sessions, acc.2.typing⟩)
  else acc

/-- Embeds user_disconnect_script: hgetall the online hash; if it is empty
return false at once (skipping everything below); otherwise walk the snapshot
deleting every socket owned by the user together with its liveness record,
then srem the user number from the typing set and report whether any socket
was removed. -/
def user_disconnect_script (st : RoomState) (user_id user_number : Nat) :
    Bool × RoomState :=
  if st.online = [] then (false, st)
  else
    let r := st.online.foldl (user_disconnect_step user_id) (false, st)
    (r.1, ⟨r.2.online, r.2.sessions, (srem r.2.typing user_number).2⟩)

/-- Embeds user_disconnect: bool(eval result), where the Lua false comes back
as a Python None and the Lua true as 1. -/
def user_disconnect (st : RoomState) (user_id user_number : Nat) :
    Bool × RoomState :=
  user_disconnect_script st user_id user_number

/-- Embeds user_start_typing: bool(sadd(typing_key, user_number)). -/
def user_start_typing (st : RoomState) (user_number : Nat) :
    Bool × RoomState :=
  let r := sadd st.typing user_number
  (decide (r.1 ≠ 0), ⟨st.online, st.sessions, r.2⟩)

/-- Embeds user_stop_typing: bool(srem(typing_key, user_number)). -/
def user_stop_typing (st : RoomState) (user_number : Nat) :
    Bool × RoomState :=
  let r := srem st.typing user_number
  (decide (r.1 ≠ 0), ⟨st.online, st.sessions, r.2⟩)

/-- Embeds inconsistent_entries_script: hgetall the online hash; on an empty
hash return the empty list, otherwise walk the snapshot collecting every
(socket, user) entry whose liveness key does not exist. -/
def inconsistent_entries_script (st : RoomState) : List (String × Nat) :=
  if st.online = [] then []
  else
    st.online.foldl
      (fun acc e =>
        if (listGet e.1 st.sessions).isNone then acc ++ [e] else acc) []

/-- Embeds inconsistent_entries: the Python wrapper only re-reads each pair,
converting the user id back with int(), which is the inverse of the str used
when the value was written; it issues no write command, so the state comes
back unchanged. -/
def inconsistent_entries (st : RoomState) :
    List (String × Nat) × RoomState :=
  (inconsistent_entries_script st, st)

theorem foldl_collect_eq_filter {α : Type} (p : α → Bool) :
    ∀ (l : List α) (acc : List α),
      l.foldl (fun acc e => if p e then acc ++ [e] else acc) acc
        = acc ++ l.filter p := by
  intro l
  induction l with
  | nil => intro acc; simp
  | cons a l ih =>
    intro acc
    by_cases h : p a
    · simp only [List.foldl_cons, h, if_true, List.filter_cons_of_pos h]
      rw [ih]
      simp
    · simp only [List.foldl_cons, h, if_false, List.filter_cons_of_neg h]
      exact ih acc

theorem inconsistent_entries_eq_filter (st : RoomState) :
    inconsistent_entries_script st
      = st.online.filter (fun e => (listGet e.1 st.sessions).isNone) := by
  unfold inconsistent_entries_script
  by_cases h : st.online = []
  · simp [h]
  · simp only [h, if_false]
    rw [foldl_collect_eq_filter]
    simp

/-- Claim C4: socket_join returns true exactly when the joining user id was
absent from the online-map values in the pre-update snapshot (the transition
from zero to one online handles); after a join the user is among the online
values, so any further join for another handle of the same user returns
false. -/
theorem C4_socket_join_change_signal (st : RoomState) (sock sess : String)
    (u : Nat) :
    ((socket_join st sock sess u).1 = true ↔ u ∉ st.online.map Prod.snd) ∧
    (u ∈ (socket_join st sock sess u).2.online.map Prod.snd) ∧
    (∀ sock2 sess2,
      (socket_join (socket_join st sock sess u).2 sock2 sess2 u).1 = false) := by
  refine ⟨by simp [socket_join], ?_, ?_⟩
  · simp [socket_join, listSet]
  · intro sock2 sess2
    simp [socket_join, listSet]

/-- Claim C5: when the handle is present in the online map with owner u,
the owner had at least one online handle, and socket_disconnect returns true
exactly when u no longer appears among the online values that remain after
the removal, i.e. exactly on the transition from one or more online handles
to zero. -/
theorem C5_socket_disconnect_change_signal (st : RoomState) (sock : String)
    (n u : Nat) (h : listGet sock st.online = some u) :
    u ∈ st.online.map Prod.snd ∧
    ((socket_disconnect st sock n).1 = true ↔
      u ∉ (socket_disconnect st sock n).2.online.map Prod.snd) := by
  constructor
  · exact List.mem_map.mpr ⟨(sock, u), listGet_mem h, rfl⟩
  · simp only [socket_disconnect, h]
    simp

theorem C5_socket_disconnect_change_signal_witness :
    5 ∈ (⟨[("h1", 5)], [], []⟩ : RoomState).online.map Prod.snd ∧
    ((socket_disconnect ⟨[("h1", 5)], [], []⟩ "h1" 0).1 = true ↔
      5 ∉ (socket_disconnect ⟨[("h1", 5)], [], []⟩ "h1" 0).2.online.map
        Prod.snd) :=
  C5_socket_disconnect_change_signal ⟨[("h1", 5)], [], []⟩ "h1" 0 5 (by rfl)

/-- Claim C8: inconsistent_entries leaves the online map, the liveness
records and the typing set unchanged, and returns exactly the entries of the
online map whose liveness record is absent. -/
theorem C8_inconsistent_entries_detection_only (st : RoomState) :
    (inconsistent_entries st).2 = st ∧
    (inconsistent_entries st).1
      = st.online.filter (fun e => (listGet e.1 st.sessions).isNone) :=
  ⟨rfl, inconsistent_entries_eq_filter st⟩

/-- Claim C9: user_start_typing returns true exactly when the user number was
not already in the typing set, user_stop_typing returns true exactly when it
was, a false-returning call of either leaves the state unchanged, stop on a
non-typing user returns false, and stop called again right after a
true-returning stop returns false. -/
theorem C9_typing_toggle_change_signals (st : RoomState) (n : Nat) :
    ((user_start_typing st n).1 = true ↔ n ∉ st.typing) ∧
    ((user_stop_typing st n).1 = true ↔ n ∈ st.typing) ∧
    ((user_start_typing st n).1 = false → (user_start_typing st n).2 = st) ∧
    ((user_stop_typing st n).1 = false → (user_stop_typing st n).2 = st) ∧
    ((user_stop_typing st n).1 = true →
      (user_stop_typing (user_stop_typing st n).2 n).1 = false) := by
  refine ⟨?_, ?_, ?_, ?_, ?_⟩
  · by_cases h : n ∈ st.typing <;> simp [user_start_typing, sadd, h]
  · by_cases h : n ∈ st.typing <;> simp [user_stop_typing, srem, h]
  · intro hfalse
    by_cases h : n ∈ st.typing
    · simp [user_start_typing, sadd, h]
    · simp [user_start_typing, sadd, h] at hfalse
  · intro hfalse
    by_cases h : n ∈ st.typing
    · simp [user_stop_typing, srem, h] at hfalse
    · simp [user_stop_typing, srem, h]
  · intro htrue
    by_cases h : n ∈ st.typing
    · have hnot : n ∉ (user_stop_typing st n).2.typing := by
        simp [user_stop_typing]
        exact srem_not_mem st.typing n
      simp [user_stop_typing, srem] at hnot ⊢
      simp [hnot]
    · simp [user_stop_typing, srem, h] at htrue

theorem C9_typing_toggle_change_signals_witness :
    ((user_start_typing ⟨[], [], []⟩ 3).1 = true ↔
      3 ∉ (⟨[], [], []⟩ : RoomState).typing) ∧
    ((user_stop_typing ⟨[], [], []⟩ 3).1 = true ↔
      3 ∈ (⟨[], [], []⟩ : RoomState).typing) ∧
    ((user_start_typing ⟨[], [], []⟩ 3).1 = false →
      (user_start_typing ⟨[], [], []⟩ 3).2 = ⟨[], [], []⟩) ∧
    ((user_stop_typing ⟨[], [], []⟩ 3).1 = false →
      (user_stop_typing ⟨[], [], []⟩ 3).2 = ⟨[], [], []⟩) ∧
    ((user_stop_typing ⟨[], [], []⟩ 3).1 = true →
      (user_stop_typing (user_stop_typing ⟨[], [], []⟩ 3).2 3).1 = false) :=
  C9_typing_toggle_change_signals ⟨[], [], []⟩ 3

/-- Claim C10: when the handle is absent from the online map,
socket_disconnect returns false and leaves the online map unchanged, while
still removing the user number from the typing set (and touching no other
typing member) and deleting any liveness record stored for the handle (and no
other). -/
theorem C10_socket_disconnect_absent_handle (st : RoomState) (sock : String)
    (n : Nat) (h : listGet sock st.online = none) :
    (socket_disconnect st sock n).1 = false ∧
    (socket_disconnect st sock n).2.online = st.online ∧
    (n ∉ (socket_disconnect st sock n).2.typing ∧
      ∀ m, m ≠ n →
        (m ∈ (socket_disconnect st sock n).2.typing ↔ m ∈ st.typing)) ∧
    (listGet sock (socket_disconnect st sock n).2.sessions = none ∧
      ∀ k, k ≠ sock →
        listGet k (socket_disconnect st sock n).2.sessions
          = listGet k st.sessions) := by
  refine ⟨?_, ?_, ⟨?_, ?_⟩, ⟨?_, ?_⟩⟩
  · simp [socket_disconnect, h]
  · simp only [socket_disconnect, h]
    exact listDel_eq_self h
  · simp only [socket_disconnect, h]
    exact srem_not_mem st.typing n
  · intro m hm
    simp only [socket_disconnect, h]
    exact srem_mem_iff hm
  · simp only [socket_disconnect, h]
    exact listGet_listDel_self sock st.sessions
  · intro k hk
    simp only [socket_disconnect, h]
    exact listGet_listDel_ne hk st.sessions

theorem C10_socket_disconnect_absent_handle_witness :
    (socket_disconnect ⟨[("h1", 5)], [("h2", ("s", 9))], [3, 4]⟩ "h2" 3).1
        = false ∧
    (socket_disconnect ⟨[("h1", 5)], [("h2", ("s", 9))], [3, 4]⟩
        "h2" 3).2.online = [("h1", 5)] ∧
    (3 ∉ (socket_disconnect ⟨[("h1", 5)], [("h2", ("s", 9))], [3, 4]⟩
        "h2" 3).2.typing ∧
      ∀ m, m ≠ 3 →
        (m ∈ (socket_disconnect ⟨[("h1", 5)], [("h2", ("s", 9))], [3, 4]⟩
            "h2" 3).2.typing ↔ m ∈ [3, 4])) ∧
    (listGet "h2" (socket_disconnect ⟨[("h1", 5)], [("h2", ("s", 9))], [3, 4]⟩
        "h2" 3).2.sessions = none ∧
      ∀ k, k ≠ "h2" →
        listGet k (socket_disconnect ⟨[("h1", 5)], [("h2", ("s", 9))], [3, 4]⟩
            "h2" 3).2.sessions = listGet k [("h2", ("s", 9))]) :=
  C10_socket_disconnect_absent_handle ⟨[("h1", 5)], [("h2", ("s", 9))], [3, 4]⟩
    "h2" 3 (by rfl)

/-- Claim C6: socket_ping raises PingTimeoutException when the liveness
record of the handle is absent even though its online-map entry exists, and
likewise when the online-map entry is absent; on success it refreshes the
TTL of the liveness record; and after a liveness-expiry timeout,
inconsistent_entries lists that (handle, user id) pair. -/
theorem C6_socket_ping_timeout_and_reconcile (st : RoomState) (sock : String) :
    (∀ u, listGet sock st.online = some u → listGet sock st.sessions = none →
      (socket_ping st sock).1 = PingOutcome.pingTimeout ∧
      (sock, u) ∈ (inconsistent_entries st).1) ∧
    (listGet sock st.online = none →
      (socket_ping st sock).1 = PingOutcome.pingTimeout) ∧
    (∀ u sess ttl, listGet sock st.online = some u →
      listGet sock st.sessions = some (sess, ttl) →
      (socket_ping st sock).1 = PingOutcome.ok ∧
      listGet sock (socket_ping st sock).2.sessions = some (sess, 30)) := by
  refine ⟨?_, ?_, ?_⟩
  · intro u h1 h2
    constructor
    · simp [socket_ping, socket_ping_script, h1, h2]
    · show (sock, u) ∈ (inconsistent_entries st).1
      have : (inconsistent_entries st).1
          = st.online.filter (fun e => (listGet e.1 st.sessions).isNone) :=
        inconsistent_entries_eq_filter st
      rw [this]
      exact List.mem_filter.mpr ⟨listGet_mem h1, by simp [h2]⟩
  · intro h1
    simp [socket_ping, socket_ping_script, h1]
  · intro u sess ttl h1 h2
    constructor
    · simp [socket_ping, socket_ping_script, h1, h2]
    · simp only [socket_ping, socket_ping_script, h1, h2]
      exact listGet_listSet_self sock (sess, 30) st.sessions

theorem C6_socket_ping_timeout_and_reconcile_witness :
    ((socket_ping ⟨[("h", 7)], [], []⟩ "h").1 = PingOutcome.pingTimeout ∧
      ("h", 7) ∈ (inconsistent_entries ⟨[("h", 7)], [], []⟩).1) ∧
    ((socket_ping ⟨[], [("h", ("s", 5))], []⟩ "h").1
        = PingOutcome.pingTimeout) ∧
    ((socket_ping ⟨[("h", 7)], [("h", ("s", 5))], []⟩ "h").1
        = PingOutcome.ok ∧
      listGet "h" ((socket_ping ⟨[("h", 7)], [("h", ("s", 5))], []⟩
        "h").2).sessions = some ("s", 30)) :=
  ⟨(C6_socket_ping_timeout_and_reconcile ⟨[("h", 7)], [], []⟩ "h").1 7
      (by rfl) (by rfl),
   (C6_socket_ping_timeout_and_reconcile ⟨[], [("h", ("s", 5))], []⟩ "h").2.1
      (by rfl),
   (C6_socket_ping_timeout_and_reconcile ⟨[("h", 7)], [("h", ("s", 5))], []⟩
      "h").2.2 7 "s" 5 (by rfl) (by rfl)⟩

/-- Socket ids of the online-map entries owned by a user: the keys the loop in
user_disconnect_script deletes. -/
def ownedKeys (user_id : Nat) (l : List (String × Nat)) : List String :=
  (l.filter (fun e => e.2 == user_id)).map Prod.fst

theorem listGet_cons {α : Type} (k : String) (p : String × α)
    (l : List (String × α)) :
    listGet k (p :: l)
      = if (p.1 == k) = true then some p.2 else listGet k l := by
  by_cases h : (p.1 == k) = true <;> simp [listGet, List.find?_cons, h]

theorem listGet_eq_some_iff_mem {α : Type} {l : List (String × α)}
    (hnd : (l.map Prod.fst).Nodup) {k : String} {v : α} :
    listGet k l = some v ↔ (k, v) ∈ l := by
  constructor
  · exact listGet_mem
  · intro hmem
    induction l with
    | nil => cases hmem
    | cons p l ih =>
      rw [List.map_cons, List.nodup_cons] at hnd
      rw [listGet_cons]
      rcases List.mem_cons.mp hmem with h1 | h1
      · rw [← h1]; simp
      · have hk : ¬ (p.1 = k) := by
          intro hpk
          exact hnd.1 (hpk ▸ List.mem_map.mpr ⟨(k, v), h1, rfl⟩)
        simp only [beq_iff_eq, hk, if_false]
        exact ih hnd.2 h1

theorem mem_ownedKeys_iff {uid : Nat} {l : List (String × Nat)} {k : String} :
    k ∈ ownedKeys uid l ↔ (k, uid) ∈ l := by
  unfold ownedKeys
  simp only [List.mem_map, List.mem_filter, beq_iff_eq]
  constructor
  · rintro ⟨p, ⟨hp, h2⟩, h1⟩
    cases p with
    | mk a b =>
      simp only at h1 h2
      rw [← h1, ← h2]
      exact hp
  · intro h
    exact ⟨(k, uid), ⟨h, rfl⟩, rfl⟩

theorem contains_ownedKeys_iff {uid : Nat} {l : List (String × Nat)}
    (hnd : (l.map Prod.fst).Nodup) (k : String) :
    ((ownedKeys uid l).contains k = true) ↔ listGet k l = some uid := by
  rw [listGet_eq_some_iff_mem hnd, ← mem_ownedKeys_iff]
  rw [List.contains_iff_exists_mem_beq]
  constructor
  · rintro ⟨a, ha, hba⟩
    rw [beq_iff_eq] at hba
    rw [hba]
    exact ha
  · intro h
    exact ⟨k, h, by simp⟩

theorem listGet_filter_keys {α : Type} (k : String) (K : List String)
    (l : List (String × α)) :
    listGet k (l.filter (fun p => !(K.contains p.1)))
      = if K.contains k = true then none else listGet k l := by
  induction l with
  | nil => by_cases h : K.contains k = true <;> simp [listGet, h]
  | cons p l ih =>
    by_cases hK : p.1 ∈ K
    · rw [List.filter_cons_of_neg (by simp [hK])]
      rw [ih, listGet_cons]
      by_cases hck : k ∈ K
      · simp [hck]
      · have hpk : (p.1 == k) = false := by
          rw [beq_eq_false_iff_ne]
          intro hh
          rw [hh] at hK
          exact hck hK
        simp [hck, hpk]
    · rw [List.filter_cons_of_pos (by simp [hK])]
      rw [listGet_cons, listGet_cons]
      by_cases hpk : (p.1 == k) = true
      · have hkk : p.1 = k := by simpa using hpk
        subst hkk
        simp [hK, hpk]
      · simp only [hpk, if_false]
        exact ih

theorem filter_del_contains {α : Type} (k : String) (K : List String)
    (l : List (String × α)) :
    (listDel k l).filter (fun p => !(K.contains p.1))
      = l.filter (fun p => !((k :: K).contains p.1)) := by
  unfold listDel
  rw [List.filter_filter]
  apply List.filter_congr
  intro p hp
  by_cases hk : p.1 = k
  · simp [hk]
  · simp [hk]

theorem ownedKeys_cons_pos {uid : Nat} {e : String × Nat}
    (h : (e.2 == uid) = true) (l : List (String × Nat)) :
    ownedKeys uid (e :: l) = e.1 :: ownedKeys uid l := by
  unfold ownedKeys
  rw [List.filter_cons]
  simp [h]

theorem ownedKeys_cons_neg {uid : Nat} {e : String × Nat}
    (h : ¬ (e.2 == uid) = true) (l : List (String × Nat)) :
    ownedKeys uid (e :: l) = ownedKeys uid l := by
  unfold ownedKeys
  rw [List.filter_cons]
  simp [h]

theorem user_disconnect_foldl (user_id : Nat) :
    ∀ (l : List (String × Nat)) (b : Bool) (s : RoomState),
      l.foldl (user_disconnect_step user_id) (b, s)
        = (b || l.any (fun e => e.2 == user_id),
           ⟨s.online.filter
              (fun p => !((ownedKeys user_id l).contains p.1)),
            s.sessions.filter
              (fun p => !((ownedKeys user_id l).contains p.1)),
            s.typing⟩) := by
  intro l
  induction l with
  | nil =>
    intro b s
    simp [ownedKeys]
  | cons e l ih =>
    intro b s
    by_cases h : (e.2 == user_id) = true
    · have hstep : user_disconnect_step user_id (b, s) e
          = (true, ⟨listDel e.1 s.online, listDel e.1 s.sessions,
              s.typing⟩) := by
        simp [user_disconnect_step, h]
      rw [List.foldl_cons, hstep,
        ih true ⟨listDel e.1 s.online, listDel e.1 s.sessions, s.typing⟩]
      rw [ownedKeys_cons_pos h]
      rw [← filter_del_contains e.1 (ownedKeys user_id l) s.online,
        ← filter_del_contains e.1 (ownedKeys user_id l) s.sessions]
      simp [List.any_cons, h]
    · have hstep : user_disconnect_step user_id (b, s) e = (b, s) := by
        simp [user_disconnect_step, h]
      rw [List.foldl_cons, hstep, ih b s, ownedKeys_cons_neg h]
      simp [List.any_cons, h]

/-- Claim C7 counterexample: when the online map is empty the script returns
false before reaching the srem, so a user number that is in the typing set
stays there, while the claim states it is always removed. -/
theorem C7_empty_online_map_keeps_typing :
    (user_disconnect ⟨[], [], [3]⟩ 5 3).2.typing = [3] ∧
    (user_disconnect ⟨[], [], [3]⟩ 5 3).1 = false := ⟨rfl, rfl⟩

/-- Claim C7 as amended: user_disconnect removes every online-map handle owned
by user_id together with its liveness record and returns true exactly when at
least one handle was removed; the user number is removed from the typing set
only when the online map was non-empty, because an empty online map makes the
script return false at once, leaving the whole state (typing set included)
unchanged. -/
theorem C7_user_disconnect_amended (st : RoomState) (uid n : Nat)
    (hkeys : (st.online.map Prod.fst).Nodup) :
    ((user_disconnect st uid n).1 = true ↔
      st.online.any (fun e => e.2 == uid) = true) ∧
    ((user_disconnect st uid n).2.online
      = st.online.filter (fun e => !(e.2 == uid))) ∧
    (∀ sock, listGet sock (user_disconnect st uid n).2.sessions
      = if listGet sock st.online = some uid then none
        else listGet sock st.sessions) ∧
    (st.online ≠ [] →
      (n ∉ (user_disconnect st uid n).2.typing ∧
        ∀ m, m ≠ n →
          (m ∈ (user_disconnect st uid n).2.typing ↔ m ∈ st.typing))) ∧
    (st.online = [] → user_disconnect st uid n = (false, st)) := by
  by_cases hemp : st.online = []
  · refine ⟨?_, ?_, ?_, ?_, ?_⟩
    · simp [user_disconnect, user_disconnect_script, hemp]
    · simp [user_disconnect, user_disconnect_script, hemp]
    · intro sock
      simp [user_disconnect, user_disconnect_script, hemp, listGet]
    · intro hne
      exact absurd hemp hne
    · intro _
      simp [user_disconnect, user_disconnect_script, hemp]
  · have hud : user_disconnect st uid n
        = (st.online.any (fun e => e.2 == uid),
           ⟨st.online.filter
              (fun p => !((ownedKeys uid st.online).contains p.1)),
            st.sessions.filter
              (fun p => !((ownedKeys uid st.online).contains p.1)),
            (srem st.typing n).2⟩) := by
      unfold user_disconnect user_disconnect_script
      rw [if_neg hemp, user_disconnect_foldl]
      simp
    refine ⟨?_, ?_, ?_, ?_, ?_⟩
    · rw [hud]
    · rw [hud]
      apply List.filter_congr
      intro p hp
      have hiff := @contains_ownedKeys_iff uid st.online hkeys p.1
      have hc : (ownedKeys uid st.online).contains p.1 = (p.2 == uid) := by
        by_cases hval : p.2 = uid
        · have hpe : (p.1, uid) = p := by rw [← hval]
          have hmem2 : (p.1, uid) ∈ st.online := by rw [hpe]; exact hp
          have h1 : (ownedKeys uid st.online).contains p.1 = true :=
            hiff.mpr ((listGet_eq_some_iff_mem hkeys).mpr hmem2)
          rw [h1]
          exact (beq_iff_eq.mpr hval).symm
        · have h1 : (ownedKeys uid st.online).contains p.1 = false := by
            by_contra hcon
            rw [Bool.not_eq_false] at hcon
            have hmem2 := listGet_mem (hiff.mp hcon)
            have heq := List.inj_on_of_nodup_map hkeys hp hmem2 rfl
            exact hval (congrArg Prod.snd heq)
          rw [h1]
          exact (beq_eq_false_iff_ne.mpr hval).symm
      show (!(ownedKeys uid st.online).contains p.1) = !(p.2 == uid)
      rw [hc]
    · intro sock
      rw [hud]
      show listGet sock (st.sessions.filter
          (fun p => !((ownedKeys uid st.online).contains p.1))) = _
      rw [listGet_filter_keys]
      by_cases hc : listGet sock st.online = some uid
      · rw [if_pos ((contains_ownedKeys_iff hkeys sock).mpr hc), if_pos hc]
      · rw [if_neg (fun hh => hc ((contains_ownedKeys_iff hkeys sock).mp hh)),
          if_neg hc]
    · intro _
      rw [hud]
      exact ⟨srem_not_mem st.typing n, fun m hm => srem_mem_iff hm⟩
    · intro h
      exact absurd h hemp

theorem C7_user_disconnect_amended_witness :
    (user_disconnect ⟨[("h1", 5), ("h2", 6)],
        [("h1", ("s", 30)), ("h2", ("t", 9))], [3, 4]⟩ 5 3).1 = true ∧
    (user_disconnect ⟨[("h1", 5), ("h2", 6)],
        [("h1", ("s", 30)), ("h2", ("t", 9))], [3, 4]⟩ 5 3).2.online
      = [("h2", 6)] ∧
    listGet "h1" (user_disconnect ⟨[("h1", 5), ("h2", 6)],
        [("h1", ("s", 30)), ("h2", ("t", 9))], [3, 4]⟩ 5 3).2.sessions
      = none ∧
    listGet "h2" (user_disconnect ⟨[("h1", 5), ("h2", 6)],
        [("h1", ("s", 30)), ("h2", ("t", 9))], [3, 4]⟩ 5 3).2.sessions
      = some ("t", 9) ∧
    3 ∉ (user_disconnect ⟨[("h1", 5), ("h2", 6)],
        [("h1", ("s", 30)), ("h2", ("t", 9))], [3, 4]⟩ 5 3).2.typing := by
  have h := C7_user_disconnect_amended
    ⟨[("h1", 5), ("h2", 6)], [("h1", ("s", 30)), ("h2", ("t", 9))], [3, 4]⟩
    5 3 (by decide)
  refine ⟨h.1.mpr (by decide), (h.2.1).trans (by decide),
    (h.2.2.1 "h1").trans (by decide), (h.2.2.1 "h2").trans (by decide),
    (h.2.2.2.1 (by decide)).1⟩
